import Mathlib

/-!
Verification development for the aimharder-bot repository.

The Python sources (src/main.py, src/notify_workouts.py, src/bot_utils.py) are
shallowly embedded here.  Python strings are modelled as List Char (Python len,
slicing and membership all operate on characters, as List Char does).  JSON
values decoded by response.json() are modelled by the Json inductive below;
JSON numbers are modelled as Int, which covers every numeric comparison the
code performs (logout == 1, bookState == -2, bookState == -12).  Python dicts
decoded from JSON are association lists with unique keys.  Fallible Python
code (AttributeError / TypeError / ValueError on ill-typed data) is modelled
with Except.  External collaborators (BeautifulSoup text extraction,
html.unescape, the Telegram transport) are taken as function parameters, as
the specification itself treats them as injected collaborators.
-/

/-- Model of a decoded JSON value (the result of response.json() in Python). -/
inductive Json where
  | null : Json
  | bool (b : Bool) : Json
  | num (n : Int) : Json
  | str (s : List Char) : Json
  | arr (xs : List Json) : Json
  | obj (kvs : List (List Char × Json)) : Json

/-- Abbreviation for a decoded JSON object (a Python dict). -/
abbrev Obj := List (List Char × Json)

/-- Shorthand turning a Lean string literal into the List Char representation. -/
def lc (s : String) : List Char := s.data

mutual

/-- Boolean structural equality on Json values. -/
def beq_json : Json → Json → Bool
  | .null, .null => true
  | .bool a, .bool b => a == b
  | .num a, .num b => a == b
  | .str a, .str b => a == b
  | .arr a, .arr b => beq_json_list a b
  | .obj a, .obj b => beq_json_obj a b
  | _, _ => false

/-- Pointwise beq_json on lists. -/
def beq_json_list : List Json → List Json → Bool
  | [], [] => true
  | a :: as1, b :: bs1 => beq_json a b && beq_json_list as1 bs1
  | _, _ => false

/-- Pointwise beq_json on association lists. -/
def beq_json_obj : List (List Char × Json) → List (List Char × Json) → Bool
  | [], [] => true
  | (k1, v1) :: r1, (k2, v2) :: r2 => k1 == k2 && beq_json v1 v2 && beq_json_obj r1 r2
  | _, _ => false

end

mutual

theorem beq_json_iff : ∀ a b, beq_json a b = true ↔ a = b
  | .null, b => by cases b <;> simp [beq_json]
  | .bool x, b => by cases b <;> simp [beq_json]
  | .num x, b => by cases b <;> simp [beq_json]
  | .str x, b => by cases b <;> simp [beq_json]
  | .arr xs, b => by
      cases b <;> simp [beq_json]
      exact beq_json_list_iff xs _
  | .obj kvs, b => by
      cases b <;> simp [beq_json]
      exact beq_json_obj_iff kvs _

theorem beq_json_list_iff : ∀ a b, beq_json_list a b = true ↔ a = b
  | [], b => by cases b <;> simp [beq_json_list]
  | x :: xs, b => by
      cases b with
      | nil => simp [beq_json_list]
      | cons y ys =>
          simp [beq_json_list, Bool.and_eq_true, beq_json_iff x y, beq_json_list_iff xs ys]

theorem beq_json_obj_iff : ∀ a b, beq_json_obj a b = true ↔ a = b
  | [], b => by cases b <;> simp [beq_json_obj]
  | (k, v) :: xs, b => by
      cases b with
      | nil => simp [beq_json_obj]
      | cons p ys =>
          obtain ⟨k2, v2⟩ := p
          simp [beq_json_obj, Bool.and_eq_true, beq_json_iff v v2, beq_json_obj_iff xs ys,
            and_assoc]

end

instance : DecidableEq Json := fun a b =>
  decidable_of_iff (beq_json a b = true) (beq_json_iff a b)

/-- Python truthiness of a decoded JSON value: None, False, 0, empty string,
empty list and empty dict are falsy, everything else is truthy. -/
def py_truthy : Json → Bool
  | Json.null => false
  | Json.bool b => b
  | Json.num n => n != 0
  | Json.str s => !s.isEmpty
  | Json.arr xs => !xs.isEmpty
  | Json.obj kvs => !kvs.isEmpty

/-- Python dict.get(key, dflt): the stored value when the key is present
(even when that value is JSON null), otherwise the default. -/
def j_get (kvs : Obj) (key : List Char) (dflt : Json) : Json :=
  (List.lookup key kvs).getD dflt

/-- Python dict.get(key) viewed through an is-None test: absent keys and keys
bound to JSON null both read back as Python None. -/
def get_py (kvs : Obj) (key : List Char) : Option Json :=
  match List.lookup key kvs with
  | some Json.null => none
  | o => o

/-- Python key-membership test on a dict (the in operator). -/
def has_key (kvs : Obj) (key : List Char) : Bool :=
  (List.lookup key kvs).isSome

mutual

/-- Python repr of a decoded JSON value (used by str on lists and dicts).
String escaping inside repr is not modelled; no claim evaluates it. -/
def py_repr : Json → List Char
  | Json.null => lc "None"
  | Json.bool true => lc "True"
  | Json.bool false => lc "False"
  | Json.num n => (toString n).data
  | Json.str s => lc "\x27" ++ s ++ lc "\x27"
  | Json.arr xs => lc "[" ++ py_repr_list xs ++ lc "]"
  | Json.obj kvs => lc "\x7b" ++ py_repr_obj kvs ++ lc "\x7d"

/-- Comma-joined reprs of list elements. -/
def py_repr_list : List Json → List Char
  | [] => []
  | [x] => py_repr x
  | x :: y :: rest => py_repr x ++ lc ", " ++ py_repr_list (y :: rest)

/-- Comma-joined reprs of dict items. -/
def py_repr_obj : List (List Char × Json) → List Char
  | [] => []
  | [(k, v)] => lc "\x27" ++ k ++ lc "\x27: " ++ py_repr v
  | (k, v) :: p :: rest =>
      lc "\x27" ++ k ++ lc "\x27: " ++ py_repr v ++ lc ", " ++ py_repr_obj (p :: rest)

end

/-- Python str() on a decoded JSON value: strings unchanged, None as the word
None, booleans capitalised, numbers in decimal, containers via repr. -/
def py_str : Json → List Char
  | Json.str s => s
  | j => py_repr j

/-- Python str.lower(); character-level ASCII lowering (every character the
booking data exercises is ASCII). -/
def py_lower (s : List Char) : List Char := s.map Char.toLower

/-- Python str.upper(); character-level ASCII raising. -/
def py_upper (s : List Char) : List Char := s.map Char.toUpper

/-- Does the haystack begin with the needle (helper for py_in). -/
def leads_with : List Char → List Char → Bool
  | _, [] => true
  | [], _ :: _ => false
  | c :: cs, d :: ds => c == d && leads_with cs ds

/-- Python substring containment: needle in hay on str values. -/
def py_in (needle : List Char) : List Char → Bool
  | [] => needle.isEmpty
  | c :: rest => leads_with (c :: rest) needle || py_in needle rest

/-- Python str.strip(): drop leading and trailing whitespace.  The character
classes agree on every character the digest text can contain (space, tab,
newline, carriage return). -/
def py_strip (s : List Char) : List Char :=
  ((s.dropWhile Char.isWhitespace).reverse.dropWhile Char.isWhitespace).reverse

/-- True exactly on the str constructor. -/
def Json.isStr : Json → Bool
  | Json.str _ => true
  | _ => false

/-- True exactly on the obj constructor. -/
def Json.isObj : Json → Bool
  | Json.obj _ => true
  | _ => false

/-!
ClassMatcher: shallow embedding of find_matching_class (src/main.py lines
167 to 206).  The loop resolves the record time through the key chain
timeid / time / startTime and the record name through className / name /
activity, normalises the record time (substring before an underscore for
strings containing one, otherwise colons stripped and the first four
characters kept, non-strings stringified), compares it against the target
time with colons stripped, and tests case-insensitive containment of the
target name in the record name.  A record whose resolved name is not a
string makes Python raise AttributeError at class_name.lower(); this is the
error case of the Except result.
-/

/-- Record time resolved through the first present key of timeid, time,
startTime, defaulting to the empty string (source line 176). -/
def resolved_time (cls : Obj) : Json :=
  j_get cls (lc "timeid") (j_get cls (lc "time") (j_get cls (lc "startTime") (Json.str [])))

/-- Record name resolved through the first present key of className, name,
activity, defaulting to the empty string (source line 178). -/
def resolved_name_j (cls : Obj) : Json :=
  j_get cls (lc "className") (j_get cls (lc "name") (j_get cls (lc "activity") (Json.str [])))

/-- Python replace of colons by nothing. -/
def strip_colons (s : List Char) : List Char := s.filter (fun c => c ≠ ':')

/-- Record-side time normalisation (source lines 181 to 189): for a string
with an underscore the part before the first underscore, for any other
string the colon-stripped first four characters, for a non-string its
stringification (with no further normalisation). -/
def normalize_class_time (t : Json) : List Char :=
  match t with
  | Json.str s =>
      if s.contains '_' then s.takeWhile (fun c => c ≠ '_')
      else (strip_colons s).take 4
  | _ => py_str t

/-- The normalize_time of the specification: stringify first, then
underscore-split or colon-strip and truncate to four characters. -/
def spec_normalize_time (t : Json) : List Char :=
  let s := py_str t
  if s.contains '_' then s.takeWhile (fun c => c ≠ '_')
  else (strip_colons s).take 4

/-- The time condition of the matcher loop: normalised record time equals the
target time with colons stripped (source lines 172 and 191). -/
def time_match (cls : Obj) (target_norm : List Char) : Bool :=
  normalize_class_time (resolved_time cls) == target_norm

/-- The name condition of the matcher loop: case-insensitive containment of
the target name in the record name (source line 192). -/
def name_match (target_name nm : List Char) : Bool :=
  py_in (py_lower target_name) (py_lower nm)

/-- Resolved booked flag: first truthy of booked, isBooked, reservada
(source line 199). -/
def is_booked (cls : Obj) : Bool :=
  py_truthy (j_get cls (lc "booked") Json.null) ||
  py_truthy (j_get cls (lc "isBooked") Json.null) ||
  py_truthy (j_get cls (lc "reservada") Json.null)

/-- The private marker key the matcher writes into an already-booked match. -/
def marker : List Char := lc "_is_already_booked"

/-- Python dict assignment d[k] = v: replace in place when the key exists,
otherwise append a new binding at the end. -/
def dict_set : Obj → List Char → Json → Obj
  | [], k, v => [(k, v)]
  | (k2, v2) :: rest, k, v =>
      if k2 == k then (k2, v) :: rest else (k2, v2) :: dict_set rest k v

/-- The in-place annotation of source line 202: set the marker when the
resolved booked flag is truthy. -/
def mark_booked (cls : Obj) : Obj :=
  if is_booked cls then dict_set cls marker (Json.bool true) else cls

/-- Shallow embedding of find_matching_class (source lines 167 to 206).
The value returned by the Python function: none when no record matches,
otherwise the first matching record, annotated in place when already booked.
Error when a scanned record resolves a non-string name (AttributeError). -/
def find_matching_class : List Obj → List Char → List Char → Except (List Char) (Option Obj)
  | [], _, _ => Except.ok none
  | cls :: rest, target_time, target_name =>
      match resolved_name_j cls with
      | Json.str nm =>
          if time_match cls (strip_colons target_time) && name_match target_name nm then
            Except.ok (some (mark_booked cls))
          else
            find_matching_class rest target_time target_name
      | _ => Except.error (lc "AttributeError: lower on non-string class name")

/-- The combined match condition of the loop for one record (only meaningful
when the resolved name is a string, as in the source). -/
def qualifies (cls : Obj) (t n : List Char) : Bool :=
  time_match cls (strip_colons t) &&
    (match resolved_name_j cls with
     | Json.str nm => name_match n nm
     | _ => false)

/-- The records list as left behind by find_matching_class: the in-place
marker assignment of source line 202 mutates the first matching record
inside the callers list when that record is already booked. -/
def records_after : List Obj → List Char → List Char → Except (List Char) (List Obj)
  | [], _, _ => Except.ok []
  | cls :: rest, target_time, target_name =>
      match resolved_name_j cls with
      | Json.str nm =>
          if time_match cls (strip_colons target_time) && name_match target_name nm then
            Except.ok (mark_booked cls :: rest)
          else
            (records_after rest target_time target_name).map (cls :: ·)
      | _ => Except.error (lc "AttributeError: lower on non-string class name")

/-- The callers skip decision (src/main.py lines 489 to 491): booking is
skipped exactly when the returned match carries a truthy marker. -/
def main_skips_booking (m : Obj) : Bool :=
  py_truthy (j_get m marker Json.null)

instance {ε α : Type} [DecidableEq ε] [DecidableEq α] : DecidableEq (Except ε α) := fun a b =>
  match a, b with
  | .ok x, .ok y =>
      if h : x = y then .isTrue (by rw [h])
      else .isFalse (fun hc => by injection hc; contradiction)
  | .error x, .error y =>
      if h : x = y then .isTrue (by rw [h])
      else .isFalse (fun hc => by injection hc; contradiction)
  | .ok _, .error _ => .isFalse (fun h => Except.noConfusion h)
  | .error _, .ok _ => .isFalse (fun h => Except.noConfusion h)

theorem lookup_dict_set_self : ∀ (kvs : Obj) (k : List Char) (v : Json),
    List.lookup k (dict_set kvs k v) = some v
  | [], k, v => by simp [dict_set, List.lookup]
  | (k2, v2) :: rest, k, v => by
      by_cases h : k2 = k
      · subst h; simp [dict_set, List.lookup]
      · have hb : (k2 == k) = false := by simp [h]
        have hb2 : (k == k2) = false := by simp [Ne.symm h]
        simp [dict_set, hb, List.lookup, hb2, lookup_dict_set_self rest k v]

theorem lookup_dict_set_ne : ∀ (kvs : Obj) (k : List Char) (v : Json) (k2 : List Char),
    k2 ≠ k → List.lookup k2 (dict_set kvs k v) = List.lookup k2 kvs
  | [], k, v, k2, h => by
      have hb : (k2 == k) = false := by simp [h]
      simp [dict_set, List.lookup, hb]
  | (k3, v3) :: rest, k, v, k2, h => by
      by_cases hk : k3 = k
      · subst hk
        have hb : (k3 == k3) = true := by simp
        have hb2 : (k2 == k3) = false := by simp [h]
        simp [dict_set, hb, List.lookup, hb2]
      · have hb : (k3 == k) = false := by simp [hk]
        simp [dict_set, hb, List.lookup, lookup_dict_set_ne rest k v k2 h]

theorem lookup_mark_booked_ne (cls : Obj) (k : List Char) (hk : k ≠ marker) :
    List.lookup k (mark_booked cls) = List.lookup k cls := by
  unfold mark_booked
  by_cases hb : is_booked cls
  · simp [hb, lookup_dict_set_ne cls marker (Json.bool true) k hk]
  · simp [hb]

theorem lookup_mark_booked_marker (cls : Obj) (hb : is_booked cls = true) :
    List.lookup marker (mark_booked cls) = some (Json.bool true) := by
  unfold mark_booked
  simp [hb, lookup_dict_set_self cls marker (Json.bool true)]

theorem qualifies_eq_of_name (cls : Obj) (t n nm : List Char)
    (h : resolved_name_j cls = Json.str nm) :
    qualifies cls t n = (time_match cls (strip_colons t) && name_match n nm) := by
  unfold qualifies; rw [h]

theorem find_none_iff (t n : List Char) : ∀ (records : List Obj),
    (∀ cls ∈ records, (resolved_name_j cls).isStr = true) →
    (find_matching_class records t n = Except.ok none ↔
      ∀ cls ∈ records, qualifies cls t n = false)
  | [], _ => by simp [find_matching_class]
  | cls :: rest, h => by
      have hname := h cls (by simp)
      cases hn : resolved_name_j cls with
      | str nm =>
          have hq := qualifies_eq_of_name cls t n nm hn
          by_cases hb : (time_match cls (strip_colons t) && name_match n nm) = true
          · have hfind : find_matching_class (cls :: rest) t n =
                Except.ok (some (mark_booked cls)) := by
              simp [find_matching_class, hn, hb]
            rw [hfind]
            constructor
            · intro hc; simp at hc
            · intro hall
              have := hall cls (by simp)
              rw [hq, hb] at this
              simp at this
          · have hb2 : (time_match cls (strip_colons t) && name_match n nm) = false := by
              simpa using hb
            have hfind : find_matching_class (cls :: rest) t n =
                find_matching_class rest t n := by
              simp [find_matching_class, hn, hb2]
            rw [hfind]
            have ih := find_none_iff t n rest (fun c hc => h c (by simp [hc]))
            rw [ih]
            constructor
            · intro hall c hc
              rcases List.mem_cons.mp hc with hc | hc
              · subst hc; rw [hq, hb2]
              · exact hall c hc
            · intro hall c hc
              exact hall c (by simp [hc])
      | null => rw [hn] at hname; simp [Json.isStr] at hname
      | bool b => rw [hn] at hname; simp [Json.isStr] at hname
      | num m => rw [hn] at hname; simp [Json.isStr] at hname
      | arr xs => rw [hn] at hname; simp [Json.isStr] at hname
      | obj kvs => rw [hn] at hname; simp [Json.isStr] at hname

theorem find_first (t n : List Char) : ∀ (records : List Obj) (c : Obj),
    (∀ cls ∈ records, (resolved_name_j cls).isStr = true) →
    List.find? (fun cls => qualifies cls t n) records = some c →
    find_matching_class records t n = Except.ok (some (mark_booked c))
  | [], c, _, hf => by simp at hf
  | cls :: rest, c, h, hf => by
      have hname := h cls (by simp)
      cases hn : resolved_name_j cls with
      | str nm =>
          have hq := qualifies_eq_of_name cls t n nm hn
          by_cases hb : qualifies cls t n = true
          · rw [List.find?_cons_of_pos rest hb] at hf
            injection hf with hf
            subst hf
            rw [hq] at hb
            simp [find_matching_class, hn, hb]
          · rw [List.find?_cons_of_neg rest (by simpa using hb)] at hf
            have hb2 : (time_match cls (strip_colons t) && name_match n nm) = false := by
              rw [← hq]; simpa using hb
            have hstep : find_matching_class (cls :: rest) t n =
                find_matching_class rest t n := by
              simp [find_matching_class, hn, hb2]
            rw [hstep]
            exact find_first t n rest c (fun c2 hc => h c2 (by simp [hc])) hf
      | null => rw [hn] at hname; simp [Json.isStr] at hname
      | bool b => rw [hn] at hname; simp [Json.isStr] at hname
      | num m => rw [hn] at hname; simp [Json.isStr] at hname
      | arr xs => rw [hn] at hname; simp [Json.isStr] at hname
      | obj kvs => rw [hn] at hname; simp [Json.isStr] at hname

/-- Concrete record used by the C4 counterexample: catalog time 0700_60. -/
def cls_cex : Obj :=
  [(lc "timeid", Json.str (lc "0700_60")), (lc "className", Json.str (lc "CrossFit"))]

/-- Counterexample to C4 as stated: the spec-side normalize_time maps both the
record time 0700_60 and the target 07:00:00 to 0700, so the claim predicts a
time match, but the code only strips colons from the target (giving 070000,
with no underscore split and no truncation), so the matcher declares no time
match and returns none. -/
theorem c4_counterexample :
    spec_normalize_time (resolved_time cls_cex) =
      spec_normalize_time (Json.str (lc "07:00:00")) ∧
    time_match cls_cex (strip_colons (lc "07:00:00")) = false ∧
    find_matching_class [cls_cex] (lc "07:00:00") [] = Except.ok none :=
  ⟨rfl, rfl, rfl⟩

/-- C4 (amended): the record-side normalisation agrees with the spec
normalize_time on string inputs, but the target side is only stripped of
colons (no underscore split, no truncation to four characters); the matcher
declares a match exactly when the normalised record time equals the
colon-stripped target and the name condition holds. -/
theorem c4_time_normalization (cls : Obj) (t n nm : List Char)
    (h : resolved_name_j cls = Json.str nm) :
    (∀ s, normalize_class_time (Json.str s) = spec_normalize_time (Json.str s)) ∧
    find_matching_class [cls] t n =
      Except.ok (if normalize_class_time (resolved_time cls) == strip_colons t
                    && name_match n nm
                 then some (mark_booked cls) else none) := by
  refine ⟨fun s => rfl, ?_⟩
  by_cases hb : (normalize_class_time (resolved_time cls) == strip_colons t
      && name_match n nm) = true
  · have ht : (time_match cls (strip_colons t) && name_match n nm) = true := by
      unfold time_match; exact hb
    simp [find_matching_class, h, ht, hb]
  · have hb2 : (normalize_class_time (resolved_time cls) == strip_colons t
        && name_match n nm) = false := by simpa using hb
    have ht : (time_match cls (strip_colons t) && name_match n nm) = false := by
      unfold time_match; exact hb2
    simp [find_matching_class, h, ht, hb2]

/-- Concrete record used by the C4 witness: 1830_60 CrossFit WOD. -/
def cls_w : Obj :=
  [(lc "timeid", Json.str (lc "1830_60")), (lc "className", Json.str (lc "CrossFit WOD"))]

theorem c4_time_normalization_witness :
    find_matching_class [cls_w] (lc "18:30") (lc "CrossFit") =
      Except.ok (if normalize_class_time (resolved_time cls_w) == strip_colons (lc "18:30")
                    && name_match (lc "CrossFit") (lc "CrossFit WOD")
                 then some (mark_booked cls_w) else none) :=
  (c4_time_normalization cls_w (lc "18:30") (lc "CrossFit") (lc "CrossFit WOD") rfl).2

/-- C6: on records whose resolved names are strings (as the source assumes),
the matcher returns none exactly when no record satisfies both the time and
the name condition, and when some record qualifies it returns the first
qualifying record in catalog order, every field of which except the private
already-booked marker reads back unchanged. -/
theorem c6_first_match (records : List Obj) (t n : List Char)
    (h : ∀ cls ∈ records, (resolved_name_j cls).isStr = true) :
    (find_matching_class records t n = Except.ok none ↔
       ∀ cls ∈ records, qualifies cls t n = false) ∧
    (∀ c, List.find? (fun cls => qualifies cls t n) records = some c →
       ∃ r, find_matching_class records t n = Except.ok (some r) ∧
         (∀ k, k ≠ marker → List.lookup k r = List.lookup k c)) :=
  ⟨find_none_iff t n records h,
   fun c hf => ⟨mark_booked c, find_first t n records c h hf,
     fun k hk => lookup_mark_booked_ne c k hk⟩⟩

/-- Concrete record used by the C6 witness: a catalog entry that matches
neither the target time nor the target name. -/
def cls_miss : Obj :=
  [(lc "timeid", Json.str (lc "1000")), (lc "className", Json.str (lc "Yoga"))]

theorem c6_first_match_witness :
    find_matching_class [cls_miss] (lc "18:30") (lc "CrossFit") = Except.ok none :=
  (c6_first_match [cls_miss] (lc "18:30") (lc "CrossFit") (by decide)).1.mpr (by decide)

/-- C7: a first qualifying record whose resolved booked flag (first truthy of
booked, isBooked, reservada) is truthy is still returned by the matcher,
carrying the already-booked marker; the skip decision made from that marker
lives in the caller (main_skips_booking), not in the matcher. -/
theorem c7_booked_returned (records : List Obj) (t n : List Char) (c : Obj)
    (h : ∀ cls ∈ records, (resolved_name_j cls).isStr = true)
    (hf : List.find? (fun cls => qualifies cls t n) records = some c)
    (hb : is_booked c = true) :
    ∃ r, find_matching_class records t n = Except.ok (some r) ∧
      List.lookup marker r = some (Json.bool true) ∧
      main_skips_booking r = true ∧
      (∀ k, k ≠ marker → List.lookup k r = List.lookup k c) := by
  refine ⟨mark_booked c, find_first t n records c h hf, lookup_mark_booked_marker c hb, ?_,
    fun k hk => lookup_mark_booked_ne c k hk⟩
  unfold main_skips_booking j_get
  rw [lookup_mark_booked_marker c hb]
  rfl

/-- Concrete already-booked record used by the C7 witness. -/
def cls_booked : Obj :=
  [(lc "timeid", Json.str (lc "1830")), (lc "className", Json.str (lc "CrossFit")),
   (lc "booked", Json.bool true)]

theorem c7_booked_returned_witness :
    ∃ r, find_matching_class [cls_booked] (lc "18:30") (lc "crossfit") = Except.ok (some r) ∧
      List.lookup marker r = some (Json.bool true) ∧
      main_skips_booking r = true ∧
      (∀ k, k ≠ marker → List.lookup k r = List.lookup k cls_booked) :=
  c7_booked_returned [cls_booked] (lc "18:30") (lc "crossfit") cls_booked
    (by decide) (by decide) (by decide)

/-- Concrete already-booked record used by the C8 counterexample. -/
def cls_booked2 : Obj :=
  [(lc "timeid", Json.str (lc "1900")), (lc "className", Json.str (lc "Open Box")),
   (lc "reservada", Json.num 1)]

/-- Counterexample to C8 as stated: after the matcher runs on a list whose
first qualifying record has a truthy booked flag, the records list is not
unchanged — the matched record has acquired the marker key in place. -/
theorem c8_counterexample :
    records_after [cls_booked2] (lc "19:00") (lc "open") ≠ Except.ok [cls_booked2] := by
  decide

/-- C8 (amended): the matcher mutates at most the private already-booked
marker key of the first qualifying record; every other field of every input
record reads back unchanged after the call. -/
theorem c8_mutation_bound : ∀ (records : List Obj) (t n : List Char),
    (∀ cls ∈ records, (resolved_name_j cls).isStr = true) →
    ∃ records2, records_after records t n = Except.ok records2 ∧
      List.Forall₂ (fun r2 r => ∀ k, k ≠ marker → List.lookup k r2 = List.lookup k r)
        records2 records
  | [], _, _, _ => ⟨[], rfl, List.Forall₂.nil⟩
  | cls :: rest, t, n, h => by
      have hname := h cls (by simp)
      cases hn : resolved_name_j cls with
      | str nm =>
          by_cases hb : (time_match cls (strip_colons t) && name_match n nm) = true
          · refine ⟨mark_booked cls :: rest, by simp [records_after, hn, hb], ?_⟩
            exact List.Forall₂.cons (fun k hk => lookup_mark_booked_ne cls k hk)
              (List.forall₂_same.mpr (fun x _ => fun k _ => rfl))
          · have hb2 : (time_match cls (strip_colons t) && name_match n nm) = false := by
              simpa using hb
            obtain ⟨r2, he, hfa⟩ :=
              c8_mutation_bound rest t n (fun c hc => h c (by simp [hc]))
            refine ⟨cls :: r2, ?_, List.Forall₂.cons (fun k _ => rfl) hfa⟩
            simp [records_after, hn, hb2, he, Except.map]
      | null => rw [hn] at hname; simp [Json.isStr] at hname
      | bool b => rw [hn] at hname; simp [Json.isStr] at hname
      | num m => rw [hn] at hname; simp [Json.isStr] at hname
      | arr xs => rw [hn] at hname; simp [Json.isStr] at hname
      | obj kvs => rw [hn] at hname; simp [Json.isStr] at hname

/-- Concrete already-booked record used by the C8 witness. -/
def cls_booked3 : Obj :=
  [(lc "time", Json.str (lc "10:00")), (lc "name", Json.str (lc "Halterofilia")),
   (lc "isBooked", Json.bool true)]

theorem c8_mutation_bound_witness :
    ∃ records2, records_after [cls_booked3] (lc "10:00") (lc "halter") = Except.ok records2 ∧
      List.Forall₂ (fun r2 r => ∀ k, k ≠ marker → List.lookup k r2 = List.lookup k r)
        records2 [cls_booked3] :=
  c8_mutation_bound [cls_booked3] (lc "10:00") (lc "halter") (by decide)

/-!
BookingExecutor: shallow embedding of book_class (src/main.py lines 319 to
390).  The function resolves the class id through the key chain id / classId
/ sessionId (the innermost get has no default, so a missing chain resolves
to Python None) and returns False immediately when the resolved id is falsy.
With dry_run set it returns True without any network call.  Otherwise it
posts the booking and classifies the response: on a success HTTP status a
JSON object body is walked through logout == 1, then bookState == -2, then
bookState == -12, then presence of errorMssg or errorMssgLang; a body that
is valid JSON but not an object, or not JSON at all, counts as success.  A
non-success HTTP status is a transport failure.
-/

/-- The fixed outcome set of the booking-result classification. -/
inductive Outcome where
  | success : Outcome
  | sessionExpired : Outcome
  | noCredit : Outcome
  | tooSoonToBook : Outcome
  | genericError (msg : Json) : Outcome
  | transportError (status : Nat) : Outcome
deriving DecidableEq

/-- The booking HTTP response as the code observes it: the ok flag, the body
parsed as JSON when parseable (none models a JSONDecodeError), and the
numeric status. -/
structure Http_Resp where
  ok : Bool
  body : Option Json
  status : Nat
deriving DecidableEq

/-- Python numeric equality of a decoded JSON value against an integer
(Python True equals 1 and False equals 0; None and containers never equal an
integer). -/
def py_eq_int (j : Json) (n : Int) : Bool :=
  match j with
  | Json.num m => m == n
  | Json.bool b => (if b then (1 : Int) else 0) == n
  | _ => false

/-- The message the code reports for a generic booking error: the first
truthy of errorMssg and errorMssgLang, else the errorMssgLang value
(source line 378). -/
def err_msg (kvs : Obj) : Json :=
  let a := j_get kvs (lc "errorMssg") Json.null
  if py_truthy a then a else j_get kvs (lc "errorMssgLang") Json.null

/-- The errorMssg / errorMssgLang presence check and fall-through of source
lines 377 to 383. -/
def classify_err (kvs : Obj) : Outcome :=
  if has_key kvs (lc "errorMssg") || has_key kvs (lc "errorMssgLang") then
    Outcome.genericError (err_msg kvs)
  else Outcome.success

/-- Classification of a parsed JSON booking response body, mirroring the
nested control flow of source lines 360 to 383: the checks run only when the
body is an object; bookState is read once (absent keys and JSON null both
read as None and skip the bookState block). -/
def classify_booking (j : Json) : Outcome :=
  match j with
  | Json.obj kvs =>
      if py_eq_int (j_get kvs (lc "logout") Json.null) 1 then Outcome.sessionExpired
      else
        match get_py kvs (lc "bookState") with
        | some bs =>
            if py_eq_int bs (-2) then Outcome.noCredit
            else if py_eq_int bs (-12) then Outcome.tooSoonToBook
            else classify_err kvs
        | none => classify_err kvs
  | _ => Outcome.success

/-- The flat precedence chain in the words of the specification: logout == 1,
then bookState == -2, then bookState == -12, then errorMssg or errorMssgLang
present, else Success. -/
def spec_classify (kvs : Obj) : Outcome :=
  if py_eq_int (j_get kvs (lc "logout") Json.null) 1 then Outcome.sessionExpired
  else if py_eq_int (j_get kvs (lc "bookState") Json.null) (-2) then Outcome.noCredit
  else if py_eq_int (j_get kvs (lc "bookState") Json.null) (-12) then Outcome.tooSoonToBook
  else if has_key kvs (lc "errorMssg") || has_key kvs (lc "errorMssgLang") then
    Outcome.genericError (err_msg kvs)
  else Outcome.success

/-- Classification of the whole booking response (source lines 356 to 390):
a success status with an unparseable body is a success (the platform can
return an empty body), a non-success status is a transport failure. -/
def classify_response (r : Http_Resp) : Outcome :=
  if r.ok then
    match r.body with
    | some j => classify_booking j
    | none => Outcome.success
  else Outcome.transportError r.status

/-- The class id resolved through id / classId / sessionId; the innermost
get has no default, so the chain falls back to Python None (source line
323). -/
def resolve_class_id (info : Obj) : Json :=
  j_get info (lc "id") (j_get info (lc "classId") (j_get info (lc "sessionId") Json.null))

/-- Shallow embedding of book_class: the pair of the Boolean the Python
function returns and whether the booking POST was performed.  The falsy-id
early return precedes the dry-run branch, exactly as in the source (lines
323 to 346). -/
def book_class (info : Obj) (dry_run : Bool) (resp : Http_Resp) : Bool × Bool :=
  if py_truthy (resolve_class_id info) = false then (false, false)
  else if dry_run then (true, false)
  else ((classify_response resp) == Outcome.success, true)

/-- Counterexample to C2 as stated: for a record with no resolvable class id
a dry-run submission does not return Success — the code returns False from
the missing-id early return (still with no network call). -/
theorem c2_counterexample :
    book_class [] true (Http_Resp.mk true none 200) = (false, false) := rfl

/-- C2 (amended): a dry-run submission never performs the network booking
call, and it returns Success exactly when the resolved class id (first of
id, classId, sessionId) is truthy; with a falsy id it returns failure,
still without a network call. -/
theorem c2_dry_run (info : Obj) (resp : Http_Resp) :
    book_class info true resp = (py_truthy (resolve_class_id info), false) := by
  unfold book_class
  cases h : py_truthy (resolve_class_id info) <;> simp [h]

/-- C3: the booking-outcome classification on a parsed JSON object applies
exactly the fixed precedence logout == 1, then bookState == -2, then
bookState == -12, then errorMssg / errorMssgLang, then Success; in
particular a response with both logout = 1 and bookState = -2 is classified
as SessionExpired, not NoCredit. -/
theorem c3_precedence :
    (∀ kvs : Obj, classify_booking (Json.obj kvs) = spec_classify kvs) ∧
    classify_booking
        (Json.obj [(lc "logout", Json.num 1), (lc "bookState", Json.num (-2))]) =
      Outcome.sessionExpired := by
  refine ⟨fun kvs => ?_, rfl⟩
  unfold classify_booking spec_classify get_py j_get
  cases hl : List.lookup (lc "bookState") kvs with
  | none => simp [hl, py_eq_int, classify_err]
  | some v => cases v <;> simp [hl, py_eq_int, classify_err]

/-- C10: a booking response with a success HTTP status whose body parses as
JSON that is not an object is classified as Success; the logout / bookState
/ errorMssg classification runs only on object bodies. -/
theorem c10_non_object_success (r : Http_Resp) (j : Json)
    (hok : r.ok = true) (hb : r.body = some j) (hobj : j.isObj = false) :
    classify_response r = Outcome.success := by
  unfold classify_response
  rw [hok, hb]
  cases j with
  | obj kvs => simp [Json.isObj] at hobj
  | null => rfl
  | bool b => rfl
  | num n => rfl
  | str s => rfl
  | arr xs => rfl

theorem c10_non_object_success_witness :
    classify_response (Http_Resp.mk true (some (Json.arr [])) 200) = Outcome.success :=
  c10_non_object_success (Http_Resp.mk true (some (Json.arr [])) 200) (Json.arr [])
    rfl rfl rfl

/-!
ScheduleResolver: load_schedule (src/main.py lines 70 to 73) parses the
schedule file into a JSON value; the run (src/main.py lines 440 to 447) then
reads the weekday entry with schedule.get(day_name).  The get attribute
exists only on a dict; on a JSON list Python raises AttributeError, so a
multi-box (list-shaped) schedule aborts the run instead of being processed
per box.
-/

/-- The schedule lookup of src/main.py line 441: day_schedule =
schedule.get(day_name).  A falsy result (absent day) is the callers
nothing-scheduled skip signal. -/
def get_day_schedule (schedule : Json) (day : List Char) : Except (List Char) (Option Json) :=
  match schedule with
  | Json.obj kvs => Except.ok (List.lookup day kvs)
  | _ => Except.error (lc "AttributeError: get on non-dict schedule")

/-- Counterexample to C5 as stated: a multi-box (list-shaped) schedule is
not normalised into a one-element list and processed per box — the run
fails with AttributeError at schedule.get(day_name). -/
theorem c5_counterexample :
    get_day_schedule
        (Json.arr [Json.obj [(lc "Monday",
          Json.obj [(lc "time", Json.str (lc "18:30")),
                    (lc "class_name", Json.str (lc "CrossFit"))])]])
        (lc "Monday") =
      Except.error (lc "AttributeError: get on non-dict schedule") := rfl

/-- C5 (amended): the schedule resolver handles only the single-box flat
mapping — an object-shaped schedule is looked up per weekday name, while any
list-shaped (multi-box) schedule makes the lookup fail instead of being
normalised and processed per box. -/
theorem c5_schedule_shapes :
    (∀ (kvs : Obj) (day : List Char),
       get_day_schedule (Json.obj kvs) day = Except.ok (List.lookup day kvs)) ∧
    (∀ (xs : List Json) (day : List Char),
       get_day_schedule (Json.arr xs) day =
         Except.error (lc "AttributeError: get on non-dict schedule")) :=
  ⟨fun _ _ => rfl, fun _ _ => rfl⟩

/-!
ActivityDigestBuilder chunking: shallow embedding of the pagination loop of
notify_all_workouts (src/notify_workouts.py lines 272 to 296).  Starting from
the header, each day block plus the fixed divider is appended to the current
chunk unless that would push the current chunk past 4000 characters, in which
case the current chunk is flushed (stripped) and a fresh chunk starts with
the block; a non-empty final chunk is flushed as well.  Before sending, a
chunk that ends with the divider glyph run has its last fifteen characters
removed and is stripped again.
-/

/-- The fixed divider inserted between day blocks (source line 275). -/
def py_divider : List Char := lc "\n\n━━━━━━━━━━━━━━━\n\n"

/-- The divider glyph run the cleaning step removes (source line 292). -/
def divider_bar : List Char := lc "━━━━━━━━━━━━━━━"

/-- Two newlines (the whitespace padding around the divider glyph run). -/
def nl2 : List Char := ['\n', '\n']

/-- One iteration of the pagination loop (source lines 277 to 282): flush and
restart when the block and divider would overflow 4000, else append. -/
def chunk_step (acc : List (List Char) × List Char) (block : List Char) :
    List (List Char) × List Char :=
  if acc.2.length + block.length + py_divider.length > 4000 then
    (acc.1 ++ [py_strip acc.2], block ++ py_divider)
  else
    (acc.1, acc.2 ++ block ++ py_divider)

/-- The chunk list before cleaning (source lines 273 to 285), including the
flush of a non-empty final current chunk. -/
def raw_chunks (header : List Char) (blocks : List (List Char)) : List (List Char) :=
  if (blocks.foldl chunk_step ([], header)).2.isEmpty then
    (blocks.foldl chunk_step ([], header)).1
  else
    (blocks.foldl chunk_step ([], header)).1 ++
      [py_strip (blocks.foldl chunk_step ([], header)).2]

/-- The per-chunk cleaning of source lines 291 to 293: a chunk ending in the
divider glyph run loses its last fifteen characters and is stripped again. -/
def clean_chunk (c : List Char) : List Char :=
  if divider_bar.isSuffixOf c then py_strip (c.take (c.length - divider_bar.length)) else c

/-- The chunks the digest builder hands to the notifier. -/
def digest_chunks (header : List Char) (blocks : List (List Char)) : List (List Char) :=
  (raw_chunks header blocks).map clean_chunk

/-- Total length of a list of day blocks (the length of their concatenation). -/
def sum_len (blocks : List (List Char)) : Nat := (blocks.map List.length).sum

theorem py_strip_length_le (s : List Char) : (py_strip s).length ≤ s.length := by
  unfold py_strip
  rw [List.length_reverse]
  have h1 : ((s.dropWhile Char.isWhitespace).reverse.dropWhile Char.isWhitespace).length ≤
      (s.dropWhile Char.isWhitespace).reverse.length :=
    (List.dropWhile_suffix _).length_le
  have h2 : (s.dropWhile Char.isWhitespace).length ≤ s.length :=
    (List.dropWhile_suffix _).length_le
  rw [List.length_reverse] at h1
  omega

theorem clean_chunk_length_le (c : List Char) : (clean_chunk c).length ≤ c.length := by
  unfold clean_chunk
  split
  · refine le_trans (py_strip_length_le _) ?_
    rw [List.length_take]
    omega
  · exact le_refl _

theorem chunk_fold_bound : ∀ (blocks : List (List Char)) (acc : List (List Char) × List Char),
    (∀ c ∈ acc.1, c.length ≤ 4000) → acc.2.length ≤ 4000 →
    (∀ b ∈ blocks, b.length + py_divider.length ≤ 4000) →
    (∀ c ∈ (blocks.foldl chunk_step acc).1, c.length ≤ 4000) ∧
      (blocks.foldl chunk_step acc).2.length ≤ 4000
  | [], _, h1, h2, _ => ⟨h1, h2⟩
  | b :: rest, acc, h1, h2, h3 => by
      rw [List.foldl_cons]
      by_cases hc : acc.2.length + b.length + py_divider.length > 4000
      · have hstep : chunk_step acc b = (acc.1 ++ [py_strip acc.2], b ++ py_divider) := by
          unfold chunk_step; rw [if_pos hc]
        rw [hstep]
        apply chunk_fold_bound rest
        · intro c hcm
          rcases List.mem_append.mp hcm with hcm | hcm
          · exact h1 c hcm
          · rw [List.mem_singleton.mp hcm]
            exact le_trans (py_strip_length_le _) h2
        · have hb := h3 b (by simp)
          simp only [List.length_append]
          omega
        · intro b2 hb2
          exact h3 b2 (by simp [hb2])
      · have hstep : chunk_step acc b = (acc.1, acc.2 ++ b ++ py_divider) := by
          unfold chunk_step; rw [if_neg hc]
        rw [hstep]
        apply chunk_fold_bound rest
        · exact h1
        · simp only [List.length_append]
          omega
        · intro b2 hb2
          exact h3 b2 (by simp [hb2])

theorem raw_chunks_bound (header : List Char) (blocks : List (List Char))
    (hh : header.length ≤ 4000)
    (hb : ∀ b ∈ blocks, b.length + py_divider.length ≤ 4000) :
    ∀ c ∈ raw_chunks header blocks, c.length ≤ 4000 := by
  intro c hc
  unfold raw_chunks at hc
  have h := chunk_fold_bound blocks ([], header) (by simp) hh hb
  split at hc
  · exact h.1 c hc
  · rcases List.mem_append.mp hc with hc | hc
    · exact h.1 c hc
    · rw [List.mem_singleton.mp hc]
      exact le_trans (py_strip_length_le _) h.2

/-- The left half of py_strip. -/
def lstrip (s : List Char) : List Char := s.dropWhile Char.isWhitespace

/-- The right half of py_strip. -/
def rstrip (s : List Char) : List Char :=
  (s.reverse.dropWhile Char.isWhitespace).reverse

/-- The last character of a string ignoring trailing whitespace. -/
def last_non_ws (s : List Char) : Option Char :=
  (s.reverse.dropWhile Char.isWhitespace).head?

theorem py_strip_eq_rstrip_lstrip (s : List Char) : py_strip s = rstrip (lstrip s) := rfl

theorem head?_dropWhile_not : ∀ (p : Char → Bool) (l : List Char) (c : Char),
    (l.dropWhile p).head? = some c → p c = false
  | p, [], c => by simp [List.dropWhile]
  | p, a :: t, c => by
      rw [List.dropWhile_cons]
      by_cases hp : p a = true
      · rw [if_pos hp]
        exact head?_dropWhile_not p t c
      · rw [if_neg hp]
        intro h
        simp only [List.head?_cons, Option.some.injEq] at h
        subst h
        simpa using hp

theorem head?_dropWhile_mem (p : Char → Bool) (l : List Char) (c : Char)
    (h : (l.dropWhile p).head? = some c) : c ∈ l := by
  have h1 : c ∈ l.dropWhile p := List.mem_of_mem_head? h
  exact (List.dropWhile_suffix p).subset h1

theorem rstrip_getLast? (s : List Char) : (rstrip s).getLast? = last_non_ws s := by
  unfold rstrip last_non_ws
  exact List.getLast?_reverse _

theorem last_non_ws_not_ws (s : List Char) (c : Char)
    (h : last_non_ws s = some c) : c.isWhitespace = false :=
  head?_dropWhile_not Char.isWhitespace s.reverse c h

theorem last_non_ws_mem (s : List Char) (c : Char)
    (h : last_non_ws s = some c) : c ∈ s := by
  have := head?_dropWhile_mem Char.isWhitespace s.reverse c h
  exact List.mem_reverse.mp this

theorem last_non_ws_append (x y : List Char) :
    last_non_ws (x ++ y) =
      match last_non_ws y with
      | some c => some c
      | none => last_non_ws x := by
  unfold last_non_ws
  rw [List.reverse_append, List.dropWhile_append]
  cases hy : (y.reverse.dropWhile Char.isWhitespace) with
  | nil => simp [hy]
  | cons c t => simp [hy]

theorem last_non_ws_lstrip (s : List Char) : last_non_ws (lstrip s) = last_non_ws s := by
  induction s with
  | nil => rfl
  | cons c t ih =>
      unfold lstrip
      rw [List.dropWhile_cons]
      by_cases hc : Char.isWhitespace c = true
      · rw [if_pos hc]
        unfold lstrip at ih
        rw [ih]
        have : last_non_ws (c :: t) = last_non_ws ([c] ++ t) := by rfl
        rw [this, last_non_ws_append]
        cases ht : last_non_ws t with
        | some d => rfl
        | none =>
            simp only
            unfold last_non_ws
            simp [List.dropWhile_cons, hc, List.dropWhile]
      · rw [if_neg hc]

theorem py_strip_getLast? (s : List Char) : (py_strip s).getLast? = last_non_ws s := by
  rw [py_strip_eq_rstrip_lstrip, rstrip_getLast?, last_non_ws_lstrip]

theorem ends_with_bar_getLast (c : List Char)
    (h : divider_bar.isSuffixOf c = true) : c.getLast? = some '━' := by
  have hs : divider_bar <:+ c := List.isSuffixOf_iff_suffix.mp h
  obtain ⟨t, rfl⟩ := hs
  rw [List.getLast?_append_of_ne_nil t (by decide)]
  decide

theorem nl2_reverse : nl2.reverse = nl2 := by decide

theorem bar_reverse : divider_bar.reverse = divider_bar := by decide

theorem divider_reverse : py_divider.reverse = nl2 ++ (divider_bar ++ nl2) := by decide

theorem dropWhile_ws_nl2 (x : List Char) :
    (nl2 ++ x).dropWhile Char.isWhitespace = x.dropWhile Char.isWhitespace := by
  unfold nl2
  rw [List.cons_append, List.cons_append, List.nil_append]
  rw [List.dropWhile_cons, if_pos (by decide), List.dropWhile_cons, if_pos (by decide)]

theorem dropWhile_ws_bar (x : List Char) :
    (divider_bar ++ x).dropWhile Char.isWhitespace = divider_bar ++ x := by
  have hb : divider_bar = '━' :: lc "━━━━━━━━━━━━━━" := by decide
  rw [hb, List.cons_append, List.dropWhile_cons, if_neg (by decide), ← List.cons_append]

theorem rstrip_append_divider (w : List Char) :
    rstrip (w ++ py_divider) = (w ++ nl2) ++ divider_bar := by
  unfold rstrip
  rw [List.reverse_append, divider_reverse, List.append_assoc, dropWhile_ws_nl2,
    List.append_assoc, dropWhile_ws_bar, List.reverse_append, bar_reverse,
    List.reverse_append, nl2_reverse, List.reverse_reverse]

theorem rstrip_append_nl2 (w : List Char) : rstrip (w ++ nl2) = rstrip w := by
  unfold rstrip
  rw [List.reverse_append, nl2_reverse, dropWhile_ws_nl2]

theorem lstrip_idem_append (z y : List Char) (h : lstrip z ≠ []) :
    lstrip (lstrip z ++ y) = lstrip z ++ y := by
  cases hz : lstrip z with
  | nil => exact absurd hz h
  | cons c t =>
      have hc : Char.isWhitespace c = false := by
        apply head?_dropWhile_not Char.isWhitespace z c
        unfold lstrip at hz
        rw [hz]
        rfl
      rw [List.cons_append]
      unfold lstrip
      rw [List.dropWhile_cons, if_neg (by simp [hc])]

theorem py_strip_append_divider (z : List Char) :
    py_strip (z ++ py_divider) =
      if lstrip z = [] then divider_bar else (lstrip z ++ nl2) ++ divider_bar := by
  rw [py_strip_eq_rstrip_lstrip]
  by_cases h : lstrip z = []
  · rw [if_pos h]
    have h1 : lstrip (z ++ py_divider) = divider_bar ++ nl2 := by
      unfold lstrip
      rw [List.dropWhile_append]
      have h2 : (z.dropWhile Char.isWhitespace).isEmpty = true := by
        unfold lstrip at h
        rw [h]
        rfl
      rw [if_pos h2]
      have h3 : py_divider = nl2 ++ (divider_bar ++ nl2) := by decide
      rw [h3, dropWhile_ws_nl2, dropWhile_ws_bar]
    rw [h1, rstrip_append_nl2]
    decide
  · rw [if_neg h]
    have h1 : lstrip (z ++ py_divider) = lstrip z ++ py_divider := by
      unfold lstrip
      rw [List.dropWhile_append]
      have h2 : (z.dropWhile Char.isWhitespace).isEmpty = false := by
        cases hz : z.dropWhile Char.isWhitespace with
        | nil => exact absurd hz h
        | cons a t => rfl
      rw [h2]
      simp
    rw [h1, rstrip_append_divider]

theorem clean_py_strip_append_divider (z : List Char) :
    clean_chunk (py_strip (z ++ py_divider)) = py_strip z := by
  rw [py_strip_append_divider]
  by_cases h : lstrip z = []
  · rw [if_pos h]
    have h1 : clean_chunk divider_bar = [] := by decide
    rw [h1, py_strip_eq_rstrip_lstrip, h]
    rfl
  · rw [if_neg h]
    unfold clean_chunk
    have hsuf : divider_bar.isSuffixOf ((lstrip z ++ nl2) ++ divider_bar) = true := by
      rw [List.isSuffixOf_iff_suffix]
      exact List.suffix_append _ _
    rw [if_pos hsuf]
    have hlen : ((lstrip z ++ nl2) ++ divider_bar).length - divider_bar.length
        = (lstrip z ++ nl2).length := by
      simp only [List.length_append]
      omega
    rw [hlen, List.take_left]
    have h2 : py_strip (lstrip z ++ nl2) = rstrip (lstrip (lstrip z ++ nl2)) := rfl
    rw [h2, lstrip_idem_append z nl2 h, rstrip_append_nl2]
    rfl

/-- The shapes the current chunk can take during the pagination loop: the
untouched header, or some prefix followed by a day block and the divider. -/
def cur_shape (header : List Char) (blocks : List (List Char)) (cur : List Char) : Prop :=
  cur = header ∨ ∃ y b, b ∈ blocks ∧ cur = (y ++ b) ++ py_divider

/-- The shape of every flushed chunk: the strip of a current chunk. -/
def chunk_shape (header : List Char) (blocks : List (List Char)) (c : List Char) : Prop :=
  ∃ cur, cur_shape header blocks cur ∧ c = py_strip cur

theorem fold_shapes (header : List Char) (blocks : List (List Char)) :
    ∀ (bs : List (List Char)) (acc : List (List Char) × List Char),
    (∀ b ∈ bs, b ∈ blocks) →
    (∀ c ∈ acc.1, chunk_shape header blocks c) →
    cur_shape header blocks acc.2 →
    (∀ c ∈ (bs.foldl chunk_step acc).1, chunk_shape header blocks c) ∧
      cur_shape header blocks (bs.foldl chunk_step acc).2
  | [], _, _, h1, h2 => ⟨h1, h2⟩
  | b :: rest, acc, hbs, h1, h2 => by
      rw [List.foldl_cons]
      by_cases hc : acc.2.length + b.length + py_divider.length > 4000
      · have hstep : chunk_step acc b = (acc.1 ++ [py_strip acc.2], b ++ py_divider) := by
          unfold chunk_step; rw [if_pos hc]
        rw [hstep]
        apply fold_shapes header blocks rest
        · intro b2 hb2
          exact hbs b2 (by simp [hb2])
        · intro c hcm
          rcases List.mem_append.mp hcm with hcm | hcm
          · exact h1 c hcm
          · exact ⟨acc.2, h2, List.mem_singleton.mp hcm⟩
        · exact Or.inr ⟨[], b, hbs b (by simp), by simp⟩
      · have hstep : chunk_step acc b = (acc.1, acc.2 ++ b ++ py_divider) := by
          unfold chunk_step; rw [if_neg hc]
        rw [hstep]
        apply fold_shapes header blocks rest
        · intro b2 hb2
          exact hbs b2 (by simp [hb2])
        · exact h1
        · exact Or.inr ⟨acc.2, b, hbs b (by simp), rfl⟩

theorem raw_chunks_shape (header : List Char) (blocks : List (List Char)) :
    ∀ c ∈ raw_chunks header blocks, chunk_shape header blocks c := by
  intro c hc
  unfold raw_chunks at hc
  have h := fold_shapes header blocks blocks ([], header)
    (fun b hb => hb) (by simp) (Or.inl rfl)
  split at hc
  · exact h.1 c hc
  · rcases List.mem_append.mp hc with hcm | hcm
    · exact h.1 c hcm
    · exact ⟨_, h.2, List.mem_singleton.mp hcm⟩

theorem no_bar_of_no_bar_char (s : List Char) (hs : ¬ '━' ∈ s) :
    divider_bar.isSuffixOf (py_strip s) = false := by
  cases hb : divider_bar.isSuffixOf (py_strip s) with
  | false => rfl
  | true =>
      exfalso
      have hl := ends_with_bar_getLast _ hb
      rw [py_strip_getLast?] at hl
      exact hs (last_non_ws_mem s '━' hl)

theorem clean_no_bar_of_no_bar_char (s : List Char) (hs : ¬ '━' ∈ s) :
    divider_bar.isSuffixOf (clean_chunk (py_strip s)) = false := by
  have h1 := no_bar_of_no_bar_char s hs
  unfold clean_chunk
  rw [if_neg (by simp [h1])]
  exact h1

theorem digest_chunks_no_bar (header : List Char) (blocks : List (List Char))
    (hh : ¬ '━' ∈ header)
    (hb : ∀ b ∈ blocks, py_strip b ≠ [] ∧ ¬ '━' ∈ b) :
    ∀ c ∈ digest_chunks header blocks, divider_bar.isSuffixOf c = false := by
  intro c hc
  unfold digest_chunks at hc
  rcases List.mem_map.mp hc with ⟨c0, hc0, rfl⟩
  obtain ⟨cur, hcur, rfl⟩ := raw_chunks_shape header blocks c0 hc0
  rcases hcur with hcur1 | ⟨y, b, hbmem, rfl⟩
  · rw [hcur1]
    exact clean_no_bar_of_no_bar_char header hh
  · rw [clean_py_strip_append_divider]
    obtain ⟨hbne, hbchar⟩ := hb b hbmem
    cases hsb : divider_bar.isSuffixOf (py_strip (y ++ b)) with
    | false => rfl
    | true =>
        exfalso
        have hl := ends_with_bar_getLast _ hsb
        rw [py_strip_getLast?, last_non_ws_append] at hl
        cases hlb : last_non_ws b with
        | some d =>
            rw [hlb] at hl
            simp only [Option.some.injEq] at hl
            exact hbchar (hl ▸ last_non_ws_mem b d hlb)
        | none =>
            have hnil : (py_strip b).getLast? = none := by
              rw [py_strip_getLast?, hlb]
            exact hbne (List.getLast?_eq_none_iff.mp hnil)

theorem fold_len_mono : ∀ (bs : List (List Char)) (acc : List (List Char) × List Char),
    acc.1.length ≤ (bs.foldl chunk_step acc).1.length
  | [], _ => le_refl _
  | b :: rest, acc => by
      rw [List.foldl_cons]
      refine le_trans ?_ (fold_len_mono rest (chunk_step acc b))
      unfold chunk_step
      split
      · simp only [List.length_append, List.length_singleton]
        omega
      · exact le_refl _

theorem fold_no_flush : ∀ (bs : List (List Char)) (acc : List (List Char) × List Char),
    (bs.foldl chunk_step acc).1 = acc.1 →
    acc.2.length + sum_len bs ≤ (bs.foldl chunk_step acc).2.length ∧
      (bs ≠ [] → (bs.foldl chunk_step acc).2.length ≤ 4000)
  | [], acc, _ => ⟨by simp [sum_len], fun hne => absurd rfl hne⟩
  | b :: rest, acc, h => by
      rw [List.foldl_cons] at h ⊢
      by_cases hc : acc.2.length + b.length + py_divider.length > 4000
      · exfalso
        have hstep : chunk_step acc b = (acc.1 ++ [py_strip acc.2], b ++ py_divider) := by
          unfold chunk_step; rw [if_pos hc]
        have hm := fold_len_mono rest (chunk_step acc b)
        rw [hstep] at h hm
        rw [h] at hm
        simp [List.length_append] at hm
      · have hstep : chunk_step acc b = (acc.1, acc.2 ++ b ++ py_divider) := by
          unfold chunk_step; rw [if_neg hc]
        rw [hstep] at h ⊢
        obtain ⟨ih1, ih2⟩ := fold_no_flush rest (acc.1, acc.2 ++ b ++ py_divider) h
        constructor
        · have hsum : sum_len (b :: rest) = b.length + sum_len rest := by
            simp [sum_len]
          rw [hsum]
          simp only [List.length_append] at ih1
          omega
        · intro _
          by_cases hrest : rest = []
          · subst hrest
            simp only [List.foldl_nil]
            simp only [List.length_append]
            omega
          · exact ih2 hrest

theorem fold_cur_nonempty : ∀ (bs : List (List Char)) (acc : List (List Char) × List Char),
    bs ≠ [] → (bs.foldl chunk_step acc).2 ≠ []
  | [], _, h => absurd rfl h
  | b :: rest, acc, _ => by
      rw [List.foldl_cons]
      by_cases hrest : rest = []
      · subst hrest
        simp only [List.foldl_nil]
        have h19 : py_divider.length = 19 := by decide
        unfold chunk_step
        split
        · intro hcontra
          have := congrArg List.length hcontra
          simp [List.length_append, h19] at this
        · intro hcontra
          have := congrArg List.length hcontra
          simp [List.length_append, h19] at this
      · exact fold_cur_nonempty rest _ hrest

theorem digest_chunks_ge_two (header : List Char) (blocks : List (List Char))
    (h : 4000 < sum_len blocks) : 2 ≤ (digest_chunks header blocks).length := by
  have hne : blocks ≠ [] := by
    intro he
    subst he
    simp [sum_len] at h
  have hcur := fold_cur_nonempty blocks ([], header) hne
  unfold digest_chunks raw_chunks
  rw [List.length_map]
  have hie : (blocks.foldl chunk_step ([], header)).2.isEmpty = false := by
    cases hx : (blocks.foldl chunk_step ([], header)).2 with
    | nil => exact absurd hx hcur
    | cons a t => rfl
  rw [if_neg (by simp [hie])]
  rw [List.length_append]
  by_contra hlt
  push_neg at hlt
  have h0 : (blocks.foldl chunk_step ([], header)).1 = [] := by
    cases hx : (blocks.foldl chunk_step ([], header)).1 with
    | nil => rfl
    | cons a t =>
        rw [hx] at hlt
        simp only [List.length_cons, List.length_singleton] at hlt
        omega
  obtain ⟨hs, hb⟩ := fold_no_flush blocks ([], header) (by rw [h0])
  have hb2 := hb hne
  simp only at hs
  omega

/-- Oversized single day block used by the C1 counterexample. -/
def big_block : List Char := List.replicate 4001 'a'

theorem dropWhile_ws_replicate_a (n : Nat) :
    (List.replicate n 'a').dropWhile Char.isWhitespace = List.replicate n 'a' := by
  induction n with
  | zero => rfl
  | succ m ih => rw [List.replicate_succ, List.dropWhile_cons, if_neg (by decide)]

theorem py_strip_big : py_strip big_block = big_block := by
  unfold py_strip big_block
  rw [dropWhile_ws_replicate_a, List.reverse_replicate, dropWhile_ws_replicate_a,
    List.reverse_replicate]

/-- Counterexample to C1 as stated: with a single day block of 4001
characters the concatenation of the day blocks exceeds 4000 characters, yet
the digest builder emits a chunk (the oversized block itself, after divider
cleaning) whose length still exceeds 4000 — the flush-and-restart step never
splits an individual oversized block, so the at-most-4000 bound fails. -/
theorem c1_counterexample :
    4000 < sum_len [big_block] ∧
    (digest_chunks (lc "H") [big_block]).any (fun c => decide (4000 < c.length)) = true := by
  have hlen : big_block.length = 4001 := List.length_replicate 4001 'a'
  constructor
  · simp [sum_len, hlen]
  · have hcond : ((([] : List (List Char)), lc "H")).2.length + big_block.length +
        py_divider.length > 4000 := by
      rw [hlen]
      decide
    have hstep : chunk_step ([], lc "H") big_block =
        ([py_strip (lc "H")], big_block ++ py_divider) := by
      unfold chunk_step
      rw [if_pos hcond]
      rfl
    have hfold : [big_block].foldl chunk_step ([], lc "H") =
        ([py_strip (lc "H")], big_block ++ py_divider) := by
      rw [List.foldl_cons, hstep, List.foldl_nil]
    have hne : (big_block ++ py_divider).isEmpty = false := by
      cases hx : big_block ++ py_divider with
      | nil =>
          exfalso
          have := congrArg List.length hx
          simp [List.length_append, hlen] at this
      | cons a t => rfl
    have hraw : raw_chunks (lc "H") [big_block] =
        [py_strip (lc "H"), py_strip (big_block ++ py_divider)] := by
      unfold raw_chunks
      rw [hfold, if_neg (by simp [hne])]
      rfl
    unfold digest_chunks
    rw [hraw]
    simp only [List.map_cons, List.map_nil]
    rw [clean_py_strip_append_divider, py_strip_big]
    simp only [List.any_cons, List.any_nil]
    simp [hlen]

/-- C1 (amended): the divider is never left dangling (no chunk ends with the
divider glyph run, provided the header and the day blocks themselves do not
contain the glyph and each block has visible content), and a block total
above 4000 still forces more than one chunk; but the at-most-4000 length
bound holds only when the header and each single day block (plus divider)
fit inside 4000 characters — an oversized individual block yields an
oversized chunk. -/
theorem c1_chunk_bounds (header : List Char) (blocks : List (List Char)) :
    (header.length ≤ 4000 → (∀ b ∈ blocks, b.length + py_divider.length ≤ 4000) →
       ∀ c ∈ digest_chunks header blocks, c.length ≤ 4000) ∧
    (¬ '━' ∈ header → (∀ b ∈ blocks, py_strip b ≠ [] ∧ ¬ '━' ∈ b) →
       ∀ c ∈ digest_chunks header blocks, divider_bar.isSuffixOf c = false) ∧
    (4000 < sum_len blocks → 2 ≤ (digest_chunks header blocks).length) := by
  refine ⟨?_, ?_, ?_⟩
  · intro hh hb c hc
    unfold digest_chunks at hc
    rcases List.mem_map.mp hc with ⟨c0, hc0, rfl⟩
    exact le_trans (clean_chunk_length_le c0) (raw_chunks_bound header blocks hh hb c0 hc0)
  · exact digest_chunks_no_bar header blocks
  · exact digest_chunks_ge_two header blocks

/-- First block pair used by the C1 witness: 2050 characters each, so the
pair total exceeds 4000 while each block fits well under the limit. -/
def blk_a : List Char := List.replicate 2050 'a'

/-- Second block of the C1 witness pair. -/
def blk_b : List Char := List.replicate 2050 'b'

theorem c1_chunk_bounds_witness :
    ((digest_chunks (lc "H") [lc "x"]).headD []).length ≤ 4000 ∧
    divider_bar.isSuffixOf ((digest_chunks (lc "H") [lc "x"]).headD []) = false ∧
    2 ≤ (digest_chunks (lc "H") [blk_a, blk_b]).length :=
  ⟨(c1_chunk_bounds (lc "H") [lc "x"]).1 (by decide) (by decide) _ (by decide),
   (c1_chunk_bounds (lc "H") [lc "x"]).2.1 (by decide) (by decide) _ (by decide),
   (c1_chunk_bounds (lc "H") [blk_a, blk_b]).2.2 (by
      simp only [sum_len, List.map_cons, List.map_nil, blk_a, blk_b,
        List.length_replicate, List.sum_cons, List.sum_nil]
      omega)⟩

/-!
ActivityDigestBuilder element processing: shallow embedding of
notify_all_workouts (src/notify_workouts.py lines 30 to 298) from the point
where the activity response has been parsed as JSON.  The HTML-to-text
extraction (BeautifulSoup get_text with newline separator), html.unescape
and the Telegram transport are external collaborators and appear as function
parameters ht, ue and send_ok.  The wall clock enters only through the
precomputed list of (match, display) date label pairs of step 3.
-/

/-- The normalize helper of src/notify_workouts.py lines 22 to 27: lower-case
and keep only alphanumeric characters. -/
def py_normalize (s : List Char) : List Char := (py_lower s).filter Char.isAlphanum

/-- Value of a non-empty all-digit character list. -/
def digits_val (ds : List Char) : Option Nat :=
  if ds ≠ [] ∧ ds.all Char.isDigit then
    some (ds.foldl (fun a c => a * 10 + (c.toNat - 48)) 0)
  else none

/-- Python int() applied to a string: strip whitespace, optional sign,
decimal digits (the underscore-separator extension is not modelled; the feed
uses plain numerals). -/
def parse_int (s : List Char) : Option Int :=
  match py_strip s with
  | '-' :: ds => (digits_val ds).map (fun n => -(n : Int))
  | '+' :: ds => (digits_val ds).map (fun n => (n : Int))
  | ds => (digits_val ds).map (fun n => (n : Int))

/-- Python int() on a decoded JSON value. -/
def py_int : Json → Except (List Char) Int
  | Json.num n => Except.ok n
  | Json.bool b => Except.ok (if b then 1 else 0)
  | Json.str s =>
      match parse_int s with
      | some n => Except.ok n
      | none => Except.error (lc "ValueError: invalid literal for int")
  | _ => Except.error (lc "TypeError: int argument")

/-- Python iteration over a decoded JSON value whose elements are fed to
element.get: lists iterate their elements; empty strings and empty dicts
iterate nothing; non-empty strings and dicts yield str items whose missing
get attribute raises, and scalars are not iterable. -/
def py_iter : Json → Except (List Char) (List Json)
  | Json.arr xs => Except.ok xs
  | Json.str s => if s.isEmpty then Except.ok [] else Except.error (lc "AttributeError: get")
  | Json.obj kvs =>
      if kvs.isEmpty then Except.ok [] else Except.error (lc "AttributeError: get")
  | _ => Except.error (lc "TypeError: not iterable")

/-- The Python in operator with a string on the left: key membership on a
dict, element equality on a list, substring on a string, a TypeError
otherwise. -/
def py_in_json (k : List Char) : Json → Except (List Char) Bool
  | Json.obj kvs => Except.ok (has_key kvs k)
  | Json.arr xs => Except.ok (xs.any (fun j => j == Json.str k))
  | Json.str s => Except.ok (py_in k s)
  | _ => Except.error (lc "TypeError: not a container")

/-- Python str.splitlines worker: split at newline, carriage return, or the
two-character carriage return plus newline, with no trailing empty piece. -/
def sl_go : List Char → List Char → List (List Char)
  | [], cur => if cur.isEmpty then [] else [cur]
  | '\r' :: '\n' :: rest, cur => cur :: sl_go rest []
  | '\n' :: rest, cur => cur :: sl_go rest []
  | '\r' :: rest, cur => cur :: sl_go rest []
  | c :: rest, cur => sl_go rest (cur ++ [c])

/-- Python str.splitlines on the newline characters the feed text uses. -/
def split_lines (s : List Char) : List (List Char) := sl_go s []

/-- Python sep.join(parts). -/
def join_str (sep : List Char) : List (List Char) → List Char
  | [] => []
  | [x] => x
  | x :: y :: rest => x ++ sep ++ join_str sep (y :: rest)

/-- The note clean-up of source lines 196 to 198: extract text, strip each
line, drop blank lines, rejoin with newlines. -/
def clean_html (ht : List Char → List Char) (v : List Char) : List Char :=
  join_str (lc "\n") (((split_lines (ht v)).map py_strip).filter (fun l => !l.isEmpty))

/-- The auto-unit of source lines 161 to 164: append m for running or rowing
exercises when neither the name nor the quantity already mentions it; the
name is lower-cased only when the quantity is truthy, as in the source. -/
def ejer_unit (name_j val1 : Json) : Except (List Char) (List Char) :=
  if py_truthy val1 = false then Except.ok []
  else
    match name_j with
    | Json.str nm =>
        let low := py_lower nm
        if py_in (lc "run") low || py_in (lc "row") low then
          if py_in (lc "m") low = false && py_in (lc "m") (py_lower (py_str val1)) = false
          then Except.ok (lc "m")
          else Except.ok []
        else Except.ok []
    | _ => Except.error (lc "AttributeError: lower")

/-- Python defaultdict-style append used for both grouping dicts: append to
the list bound to the key when present, else add a new binding at the end. -/
def dict_list_add {α : Type} [BEq α] (m : List (α × List (List Char))) (k : α)
    (v : List Char) : List (α × List (List Char)) :=
  if (List.lookup k m).isSome then
    m.map (fun p => if p.1 == k then (p.1, p.2 ++ [v]) else p)
  else m ++ [(k, [v])]

/-- The exercise grouping of source lines 144 to 175: group formatted
exercise strings by their declared section index. -/
def build_sections : List Json → List (Int × List (List Char)) →
    Except (List Char) (List (Int × List (List Char)))
  | [], acc => Except.ok acc
  | ej :: rest, acc =>
      match ej with
      | Json.obj ekv =>
          match get_py ekv (lc "tipoWOD") with
          | none => build_sections rest acc
          | some sj => do
              let si ← py_int sj
              let name_j := j_get ekv (lc "ejerName") (Json.str [])
              let val1 := match j_get ekv (lc "valor1") (Json.arr []) with
                | Json.arr (x :: _) => x
                | _ => Json.str []
              let val2 := j_get ekv (lc "valor2") (Json.str [])
              let notes := j_get ekv (lc "notes") (Json.str [])
              let unit ← ejer_unit name_j val1
              let ejp := if py_truthy notes then lc "<b>" ++ py_str notes ++ lc "</b> "
                else []
              let base := py_strip (ejp ++ py_str val1 ++ unit ++ [' '] ++ py_str name_j)
              let estr := if py_truthy val2 then base ++ lc " (" ++ py_str val2 ++ lc ")"
                else base
              build_sections rest (dict_list_add acc si estr)
      | _ => Except.error (lc "AttributeError: get")

/-- The note handling of source lines 188 to 200: skip notes equal (after
strip, case-insensitively) to the class label, clean the rest, drop blanks
and duplicates within the section. -/
def add_note (wod_class : Json) (ht : List Char → List Char) (tkv : Obj)
    (key : List Char) (parts : List (List Char)) :
    Except (List Char) (List (List Char)) :=
  let val := j_get tkv key (Json.str [])
  if py_truthy val = false then Except.ok parts
  else
    match val with
    | Json.str v =>
        match wod_class with
        | Json.str w =>
            if py_upper (py_strip v) == py_upper w then Except.ok parts
            else
              let cl := clean_html ht v
              if !cl.isEmpty && !(parts.contains cl) then Except.ok (parts ++ [cl])
              else Except.ok parts
        | _ => Except.error (lc "AttributeError: upper")
    | _ => Except.error (lc "AttributeError: strip")

/-- The section loop of source lines 178 to 209: title, notes, grouped
exercises, one joined text per non-empty section, in declared order. -/
def build_tipo_parts (wod_class : Json) (sections : List (Int × List (List Char)))
    (ht : List Char → List Char) : List Json → Nat →
    Except (List Char) (List (List Char))
  | [], _ => Except.ok []
  | tj :: rest, idx =>
      match tj with
      | Json.obj tkv => do
          let title := j_get tkv (lc "title") Json.null
          let tp0 := if py_truthy title then [lc "<u>" ++ py_str title ++ lc "</u>"] else []
          let tp1 ← add_note wod_class ht tkv (lc "notes") tp0
          let tp2 ← add_note wod_class ht tkv (lc "notes2") tp1
          let tp3 := tp2 ++ (match List.lookup (Int.ofNat idx) sections with
            | some es => es.filter (fun e => !e.isEmpty)
            | none => [])
          let res ← build_tipo_parts wod_class sections ht rest (idx + 1)
          if tp3.isEmpty then return res else return (join_str (lc "\n") tp3 :: res)
      | _ => Except.error (lc "AttributeError: get")

/-- One key of the fallback of source lines 212 to 220: a truthy string
value of desc or info, cleaned, when non-blank. -/
def fb_one (ht : List Char → List Char) (kvs : Obj) (k : List Char) :
    List (List Char) :=
  match List.lookup k kvs with
  | some (Json.str v) =>
      if !v.isEmpty then
        (let cl := clean_html ht v
         if !cl.isEmpty then [cl] else [])
      else []
  | _ => []

/-- The desc / info fallback when no section produced text. -/
def fallback_parts (ht : List Char → List Char) (kvs : Obj) : List (List Char) :=
  fb_one ht kvs (lc "desc") ++ fb_one ht kvs (lc "info")

/-- One iteration of the element loop (source lines 115 to 229): date
filter, box-ownership filter, content extraction; the result is the day
label and the assembled block, or none when the element is skipped. -/
def process_element (ht ue : List Char → List Char) (box_name : List Char)
    (valid : List (List Char)) (e : Json) :
    Except (List Char) (Option (List Char × List Char)) :=
  match e with
  | Json.obj kvs =>
      match j_get kvs (lc "day") Json.null with
      | Json.str d =>
          if !d.isEmpty && valid.contains d then
            let wod_class := j_get kvs (lc "wodClass") (Json.str (lc "General"))
            match j_get kvs (lc "userName") (Json.str []) with
            | Json.str us => do
                let element_norm := py_normalize (ue us)
                let target_norm := py_normalize box_name
                let box_ok := py_in target_norm element_norm ||
                  py_in element_norm target_norm ||
                  (py_in (lc "wezone") target_norm && py_in (lc "wezone") element_norm)
                if box_ok = false then return none
                else do
                  let ejers ← py_iter (j_get kvs (lc "ejerRate") (Json.arr []))
                  let sections ← build_sections ejers []
                  let tipos ← py_iter (j_get kvs (lc "TIPOWODs") (Json.arr []))
                  let parts ← build_tipo_parts wod_class sections ht tipos 0
                  let parts2 := if parts.isEmpty then fallback_parts ht kvs else parts
                  let full_text := join_str (lc "\n\n") parts2
                  if full_text.isEmpty then return none
                  else
                    match wod_class with
                    | Json.str w =>
                        return some (d, lc "🏋️ <b>" ++ py_upper w ++ lc "</b>\n" ++
                          full_text)
                    | _ => Except.error (lc "AttributeError: upper")
            | _ => Except.error (lc "TypeError: unescape argument")
          else Except.ok none
      | _ => Except.ok none
  | _ => Except.error (lc "AttributeError: get")

/-- The whole element loop, grouping produced blocks by day label. -/
def build_wods (ht ue : List Char → List Char) (box_name : List Char)
    (valid : List (List Char)) : List Json → List (List Char × List (List Char)) →
    Except (List Char) (List (List Char × List (List Char)))
  | [], acc => Except.ok acc
  | e :: rest, acc => do
      let r ← process_element ht ue box_name valid e
      match r with
      | none => build_wods ht ue box_name valid rest acc
      | some (d, b) => build_wods ht ue box_name valid rest (dict_list_add acc d b)

/-- The day-block assembly of source lines 241 to 258: per requested date in
order, join that days blocks most-recent first, flag run days, and prefix
the display label. -/
def collect_blocks (wods : List (List Char × List (List Char))) :
    List (List Char × List Char) → List (List Char) × List (List Char)
  | [] => ([], [])
  | (m, disp) :: rest =>
      let pr := collect_blocks wods rest
      match List.lookup m wods with
      | none => pr
      | some ws =>
          let combined := join_str (lc "\n\n") ws.reverse
          let rs := if py_in (lc "run") (py_lower combined) then disp :: pr.2 else pr.2
          ((lc "🗓 <b>" ++ disp ++ lc "</b>\n" ++ combined) :: pr.1, rs)

/-- The message header of source lines 264 to 270. -/
def build_header (box_name : List Char) (run_days : List (List Char)) : List Char :=
  join_str (lc "\n")
    ([lc "📅 <b>AGENDA DE ENTRENAMIENTOS - " ++ box_name ++ lc "</b>"] ++
      (if run_days.isEmpty then []
       else (lc "\n🏃‍♂️ <b>RUN days:</b>") :: run_days.map (fun rd => lc "• " ++ rd)))
  ++ lc "\n\n"

/-- The notice sent when no workout was found (source line 237). -/
def no_wods_msg (box_name : List Char) (days_ahead : Int) : List Char :=
  lc "ℹ️ No hay entrenamientos publicados en <b>" ++ box_name ++
  lc "</b> para los próximos " ++ (toString days_ahead).data ++ lc " días."

/-- notify_all_workouts from the parsed activity JSON onward (source lines
84 to 298): the Boolean the Python function returns, paired with the list of
messages handed to the notifier.  A missing elements key returns False with
no message; an empty workout map returns True after sending the no-workout
notice; otherwise the chunked digest is sent and the result is the
conjunction of the delivery outcomes. -/
def notify_from_data (ht ue : List Char → List Char) (send_ok : List Char → Bool)
    (box_name : List Char) (days_ahead : Int)
    (valid_date_info : List (List Char × List Char)) (data : Json) :
    Except (List Char) (Bool × List (List Char)) :=
  match py_in_json (lc "elements") data with
  | Except.error e => Except.error e
  | Except.ok has_elems =>
      if has_elems = false then Except.ok (false, [])
      else
        match data with
        | Json.obj kvs =>
            match py_iter (j_get kvs (lc "elements") (Json.arr [])) with
            | Except.error e => Except.error e
            | Except.ok elems =>
                match build_wods ht ue box_name (valid_date_info.map (fun p => p.1))
                    elems [] with
                | Except.error e => Except.error e
                | Except.ok wods =>
                    if wods.isEmpty then
                      Except.ok (true, [no_wods_msg box_name days_ahead])
                    else
                      let pr := collect_blocks wods valid_date_info
                      if pr.1.isEmpty then Except.ok (true, [])
                      else
                        let header := build_header box_name pr.2
                        let chunks := digest_chunks header pr.1
                        Except.ok (chunks.all send_ok, chunks)
        | _ => Except.error (lc "AttributeError: get")

/-- Counterexample to C9 as stated: with identity collaborators and an
always-delivering notifier, an activity response that parses as JSON but has
no elements key makes the digest builder return the failure result False
with no notification at all, while the genuine no-data case (elements
present but empty) returns the non-error result True together with the
no-workouts notice — the two outcomes are not equivalent. -/
theorem c9_counterexample :
    notify_from_data (fun s => s) (fun s => s) (fun _ => true) (lc "wezone") 1
        [(lc "11 Feb", lc "MARTES 11 FEB")] (Json.obj [(lc "x", Json.null)]) =
      Except.ok (false, []) ∧
    notify_from_data (fun s => s) (fun s => s) (fun _ => true) (lc "wezone") 1
        [(lc "11 Feb", lc "MARTES 11 FEB")] (Json.obj [(lc "elements", Json.arr [])]) =
      Except.ok (true, [no_wods_msg (lc "wezone") 1]) :=
  ⟨rfl, rfl⟩

/-- C9 (amended): a parsed activity response without the elements key makes
the digest builder abort with the failure result (False) and send nothing;
the empty-digest path — the no-workouts notice with the success result True
— is taken only when elements is present (here: present and empty). -/
theorem c9_missing_elements (ht ue : List Char → List Char) (send_ok : List Char → Bool)
    (box_name : List Char) (days_ahead : Int)
    (valid_date_info : List (List Char × List Char)) (kvs : Obj)
    (h : List.lookup (lc "elements") kvs = none) :
    notify_from_data ht ue send_ok box_name days_ahead valid_date_info (Json.obj kvs) =
      Except.ok (false, []) ∧
    notify_from_data ht ue send_ok box_name days_ahead valid_date_info
        (Json.obj [(lc "elements", Json.arr [])]) =
      Except.ok (true, [no_wods_msg box_name days_ahead]) := by
  constructor
  · have h1 : py_in_json (lc "elements") (Json.obj kvs) = Except.ok false := by
      simp [py_in_json, has_key, h]
    unfold notify_from_data
    rw [h1]
    rfl
  · rfl

theorem c9_missing_elements_witness :
    notify_from_data (fun s => s) (fun s => s) (fun _ => false) (lc "mybox") 2
        [] (Json.obj [(lc "a", Json.num 3)]) =
      Except.ok (false, []) ∧
    notify_from_data (fun s => s) (fun s => s) (fun _ => false) (lc "mybox") 2
        [] (Json.obj [(lc "elements", Json.arr [])]) =
      Except.ok (true, [no_wods_msg (lc "mybox") 2]) :=
  c9_missing_elements (fun s => s) (fun s => s) (fun _ => false) (lc "mybox") 2
    [] [(lc "a", Json.num 3)] rfl
